import Mathlib

/-!
# kvnts: sink factory, sink cache, Slack sink and event dispatch

A shallow embedding of `sinks/sinks_factory.go`, `sinks/sinks_cache.go`, `sinks/slack.go`,
`sinks/payload.go`, `openai/openai.go` and the dispatch part of
`controllers/event_controller.go`.

Conventions of the embedding:

* a Go `string` is a Lean `String` (valid UTF-8 only);
* a Go `error` is an `Option String`: `none` is `nil`, `some m` is an error whose
  `Error()` text is `m`;
* a Go pointer `*Slack` is an `Option Slack`: `none` is the nil pointer, and a `Slack`
  value carries the address it was allocated at (`addr`), so that pointer equality is
  equality of addresses;
* a run-time panic is the outcome `Go.panic`;
* package-level variables and everything outside the process (the Slack API, the
  completion API, the cluster API, the environment) live in `World` and `Env`; every
  call that reaches them is appended to `World.trace`.
-/

namespace Kvnts

/-! ## Go values -/

/-- Outcome of a Go call: it returns a value or it panics. -/
inductive Go (α : Type) where
  | ret (a : α)
  | panic (msg : String)
deriving DecidableEq, Repr

/-- The `time.Duration` unit: one second, in nanoseconds. -/
def second : Nat := 1000000000

/-- The `time.Duration` unit: one hour, in nanoseconds. -/
def hour : Nat := 3600 * second

/-- A `time.Time`, carried by the text that `%s` prints for it. -/
abbrev Time := String

/-- The predicate `unicode.IsSpace` of the Go standard library. -/
def isSpace (c : Char) : Bool :=
  let n := c.toNat
  n == 0x09 || n == 0x0A || n == 0x0B || n == 0x0C || n == 0x0D || n == 0x20 ||
  n == 0x85 || n == 0xA0 || n == 0x1680 || (0x2000 ≤ n && n ≤ 0x200A) ||
  n == 0x2028 || n == 0x2029 || n == 0x202F || n == 0x205F || n == 0x3000

/-- The function `strings.TrimSpace`: leading and trailing white space removed. -/
def TrimSpace (s : String) : String :=
  String.mk ((s.data.dropWhile isSpace).reverse.dropWhile isSpace).reverse

/-- The function `strings.HasPrefix`. -/
def HasPrefix (s p : String) : Bool :=
  p.data.isPrefixOf s.data

/-- The function `strings.ToLower` on ASCII letters. Only its comparison with `"pod"` is
used, and no character outside ASCII lower-cases to `p`, `o` or `d`. -/
def ToLower (s : String) : String :=
  String.mk (s.data.map Char.toLower)

/-- Reading a Go `map[string]string`: the zero value `""` for a missing key. -/
def mapGet (m : List (String × String)) (k : String) : String :=
  match m.lookup k with
  | some v => v
  | none => ""

/-! ## Data model -/

/-- The struct `SlackConfig` (slack.go). -/
structure SlackConfig where
  BotToken : String
  ChannelID : String
  AppLevelToken : String
  Debug : Bool
deriving DecidableEq, Repr

/-- Modelled from the spec: `MattermostConfig` is declared in a file that is not among the
sources; it is a comparable record of credentials, kept uninterpreted. -/
structure MattermostConfig where
  fields : List (String × String)
deriving DecidableEq, Repr

/-- The type `SinkType` is a string. -/
abbrev SinkType := String

def SinkTypeSlack : SinkType := "slack"
def SinkTypeMattermost : SinkType := "mattermost"
def SinkTypeTeams : SinkType := "microsoft_teams"

/-- The struct `Slack` (slack.go), as seen through a `*Slack`: `addr` is the address of
the allocation. The fields `client`, `socket` and `logger` are set once by `init` from
`config` and `SinkType` and are not stored separately. -/
structure Slack where
  addr : Nat
  config : SlackConfig
  SinkType : SinkType
deriving DecidableEq, Repr

/-- Modelled from the spec: the struct `Mattermost` is declared in a file that is not
among the sources; the factory only reads its `config` field. -/
structure Mattermost where
  addr : Nat
  config : MattermostConfig
deriving DecidableEq, Repr

/-- A non-nil value of the interface `Sink`: its dynamic type is `*Slack` or
`*Mattermost`, and the pointer inside may be nil. -/
inductive Sink where
  | slack (p : Option Slack)
  | mattermost (p : Option Mattermost)
deriving DecidableEq, Repr

/-- The `config interface{}` argument of `NewSink`, by dynamic type. -/
inductive Config where
  | slack (c : SlackConfig)
  | mattermost (c : MattermostConfig)
  | other
deriving DecidableEq, Repr

/-- The struct `Payload` (payload.go). -/
structure Payload where
  Level : String
  Note : String
  CommonLabels : List (String × String)
  ExtraLabels : List (String × String)
  FirstSeen : Time
  LastSeen : Time
  Logs : String
deriving DecidableEq, Repr

/-- The constructor `NewPayload` (payload.go). -/
def NewPayload (level note : String) (commonLabels extraLabels : List (String × String))
    (firstSeen lastSeen : Time) (logs : String) : Payload :=
  ⟨level, note, commonLabels, extraLabels, firstSeen, lastSeen, logs⟩

/-! ## The Slack API surface that the code drives -/

/-- A block of a Slack message. -/
inductive Block where
  | divider
  | sectionText (kind : String) (text : String)
deriving DecidableEq, Repr

/-- The struct `slack.AttachmentAction`, with the fields the code sets or reads. -/
structure AttachmentAction where
  Name : String
  Text : String
  Type_ : String
  Value : String
  Style : String
deriving DecidableEq, Repr

/-- The struct `slack.Attachment`, with the fields the code sets. -/
structure Attachment where
  Pretext : String
  Fallback : String
  CallbackID : String
  Color : String
  Actions : List AttachmentAction
deriving DecidableEq, Repr

/-- The options handed to one `PostMessage` call. -/
structure Message where
  blocks : List Block
  attachments : List Attachment
  asUser : Bool
deriving DecidableEq, Repr

/-- The struct `slack.FileUploadParameters`, with the fields the code sets. -/
structure FileUploadParameters where
  Title : String
  Filename : String
  Filetype : String
  Content : String
  Channels : List String
  InitialComment : String
deriving DecidableEq, Repr

/-- One observable action of the program on its surroundings. -/
inductive Effect where
  | cacheHas (key : String)
  | cacheGet (key : String)
  | cacheSet (key : String) (value : Sink) (expireIn : Nat)
  | cacheRemove (key : String)
  | slackNew (addr : Nat) (botToken appLevelToken : String) (debug : Bool)
  | socketRun (addr ctx : Nat)
  | mattermostNew (config : MattermostConfig)
  | mattermostForward (p : Option Mattermost) (payload : Payload)
  | postMessage (addr : Nat) (channel : String) (msg : Message)
  | uploadFile (addr : Nat) (params : FileUploadParameters)
  | sleep (d : Nat)
  | ack (addr : Nat) (envelopeID : String)
  | chatCompletion (token prompt : String)
  | log (msg : String)
  | promtail (level : String) (labels : List (String × String)) (msg : String)
deriving DecidableEq, Repr

/-- The library cache `gcache.Cache` (github.com/bluele/gcache, outside the repository),
by its key-value contract: the entries it holds, newest first. Expiry by time and
eviction by capacity are events of the library that this model does not produce. -/
abbrev GCache := List (String × Sink)

/-- The struct `Cache` (sinks_cache.go). -/
structure Cache where
  sinks : GCache
deriving DecidableEq, Repr

/-- The state outside the function arguments: the package variable `cache`, the
allocator, the listeners started so far with the context each one runs under, the
contexts that are done, the clients whose listener has ended (its loop returned or a
panic unwound it), the singleton `client` of package openai, and the trace. -/
structure World where
  cache : Cache
  nextAddr : Nat
  listeners : List (Nat × Nat)
  cancelled : List Nat
  stopped : List Nat
  openaiClient : Option String
  trace : List Effect
deriving DecidableEq, Repr

/-- Appending one effect to the trace. -/
def World.emit (w : World) (e : Effect) : World :=
  { w with trace := w.trace ++ [e] }

/-- The owner of a context cancels it; from then on the context is done. No function of
the repository does this: the contexts come from the caller of `NewSink`. -/
def World.cancel (w : World) (ctx : Nat) : World :=
  { w with cancelled := ctx :: w.cancelled }

/-- The listener of the client at `addr` ends. -/
def World.stop (w : World) (addr : Nat) : World :=
  { w with stopped := addr :: w.stopped }

/-- The context that the listener of the client at `addr` was started under is done, so
the case `<-ctx.Done()` of its `select` can be taken. -/
def World.contextDone (w : World) (addr : Nat) : Bool :=
  w.listeners.any (fun l => l.1 == addr && w.cancelled.contains l.2)

/-- The listener of the client at `addr` is running: it was started and has not ended. -/
def World.listenerRunning (w : World) (addr : Nat) : Bool :=
  w.listeners.any (fun l => l.1 == addr) && !w.stopped.contains addr

/-- The listener of the client at `addr` is cancelled: every listener started for it
runs under a context that is done. -/
def World.listenerCancelled (w : World) (addr : Nat) : Bool :=
  w.listeners.all (fun l => l.1 != addr || w.cancelled.contains l.2)

/-- Everything the program asks of its surroundings, as answers that may depend on how
many effects happened before the call (the first argument, the length of the trace). -/
structure Env where
  /-- Error of `slack.Client.PostMessage`, by channel and message. -/
  postMessage : Nat → String → Message → Option String
  /-- Error of `slack.Client.UploadFile`. -/
  uploadFile : Nat → FileUploadParameters → Option String
  /-- Result of `os.LookupEnv`. -/
  lookupEnv : String → Option String
  /-- Result of `goopenai.Client.CreateChatCompletion`, by token and prompt: an error or
  the contents of the choices of the response. -/
  createChatCompletion : Nat → String → String → Except String (List String)
  /-- Result of `NewMattermostSink` (its source is not available), given a fresh address. -/
  newMattermostSink : Nat → MattermostConfig → Option Mattermost × Option String
  /-- Result of `Mattermost.ForwardEvent` (its source is not available). -/
  mattermostForwardEvent : Nat → Option Mattermost → Payload → Go (Option String)

/-! ## sinks_cache.go -/

def cacheSize : Nat := 32
def cacheTTL : Nat := 1 * hour

/-- The text of `gcache.KeyNotFoundError`. -/
def KeyNotFoundError : String := "Key not found."

/-- The method `gcache.Cache.Has`. -/
def GCache.Has (c : GCache) (key : String) : Bool :=
  c.any (fun e => e.1 == key)

/-- The method `gcache.Cache.Get`. -/
def GCache.Get (c : GCache) (key : String) : Option Sink × Option String :=
  match c.find? (fun e => e.1 == key) with
  | some e => (some e.2, none)
  | none => (none, some KeyNotFoundError)

/-- The method `gcache.Cache.SetWithExpire`: the entry of the key is replaced. Without a
serializer, as built by `NewCache`, it returns no error. -/
def GCache.SetWithExpire (c : GCache) (key : String) (value : Sink) (_expireIn : Nat) :
    GCache × Option String :=
  ((key, value) :: c.filter (fun e => e.1 != key), none)

/-- The method `gcache.Cache.Remove`. No evicted-callback is installed by `NewCache`. -/
def GCache.Remove (c : GCache) (key : String) : GCache :=
  c.filter (fun e => e.1 != key)

/-- The constructor `NewCache`: an empty cache; the capacity `cacheSize` and the default
expiry `cacheTTL` it passes to the library are not part of the key-value model. -/
def NewCache : Cache :=
  ⟨[]⟩

/-- The state right after the package `init` functions ran: `cache = NewCache()`. -/
def World.initial : World :=
  ⟨NewCache, 0, [], [], [], none, []⟩

/-- The method `Cache.Add` on the package variable `cache`. -/
def Cache.Add (namespacedName : String) (sink : Sink) (expireIn : Nat) (w : World) :
    Option String × World :=
  let r := w.cache.sinks.SetWithExpire namespacedName sink expireIn
  (r.2, { w.emit (Effect.cacheSet namespacedName sink expireIn) with cache := ⟨r.1⟩ })

/-- The method `Cache.Contains` on the package variable `cache`. -/
def Cache.Contains (namespacedName : String) (w : World) : Bool × World :=
  (w.cache.sinks.Has namespacedName, w.emit (Effect.cacheHas namespacedName))

/-- The method `Cache.Get` on the package variable `cache`. -/
def Cache.Get (namespacedName : String) (w : World) : (Option Sink × Option String) × World :=
  match w.cache.sinks.Get namespacedName with
  | (_, some err) => ((none, some err), w.emit (Effect.cacheGet namespacedName))
  | (val, none) => ((val, none), w.emit (Effect.cacheGet namespacedName))

/-- The method `Cache.Remove` on the package variable `cache`. -/
def Cache.Remove (namespacedName : String) (w : World) : World :=
  { w.emit (Effect.cacheRemove namespacedName) with
    cache := ⟨w.cache.sinks.Remove namespacedName⟩ }

/-! ## slack.go: construction -/

def slackApiRateLimit : Nat := 1 * second

/-- The goroutine `Slack.handlerSocketMode(ctx)`, at its start: it starts the listener
`listenSocketEvents(ctx)` and runs the socket, both until `ctx` is done. -/
def Slack.handlerSocketMode (s : Slack) (ctx : Nat) (w : World) : World :=
  { w.emit (Effect.socketRun s.addr ctx) with listeners := w.listeners ++ [(s.addr, ctx)] }

/-- The method `Slack.init`: the API client and the socket client are created from the
configuration, and the goroutine `handlerSocketMode(ctx)` is started. -/
def Slack.init (s : Slack) (ctx : Nat) (w : World) : World :=
  let w := w.emit (Effect.slackNew s.addr s.config.BotToken s.config.AppLevelToken s.config.Debug)
  s.handlerSocketMode ctx w

/-- The constructor `NewSlackSink`. -/
def NewSlackSink (ctx : Nat) (config : SlackConfig) (w : World) :
    (Option Slack × Option String) × World :=
  if !HasPrefix config.BotToken "xoxb-" then
    ((none, some "no valid bot token"), w)
  else if !HasPrefix config.AppLevelToken "xapp-" then
    ((none, some "no valid app level token"), w)
  else
    let slackSink : Slack := ⟨w.nextAddr, config, SinkTypeSlack⟩
    let w := { w with nextAddr := w.nextAddr + 1 }
    ((some slackSink, none), slackSink.init ctx w)

/-! ## sinks_factory.go -/

/-- The package variable `sinkTypes`, as filled by `init`. -/
def sinkTypes : List String :=
  [SinkTypeSlack, SinkTypeMattermost, SinkTypeTeams]

/-- The loop of `indexOf` from position `index` on. -/
def indexOfFrom (types : List String) (index : Nat) (sinkType : String) : Int :=
  match types with
  | [] => -1
  | t :: rest => if t = sinkType then (index : Int) else indexOfFrom rest (index + 1) sinkType

/-- The function `indexOf`. -/
def indexOf (sinkType : String) : Int :=
  indexOfFrom sinkTypes 0 sinkType

/-- The `if cache.Contains(...)` block of the Slack case of `NewSink` (lines 61-73):
`some r` is a return from `NewSink`, `none` falls through to the construction. The type
assertion `sink.(*Slack)` with its second result dropped gives the nil pointer when the
dynamic type is another one, and reading `cached.config` through a nil pointer panics. -/
def NewSink.slackLookup (namespacedName : String) (slackConfig : SlackConfig) (w : World) :
    Option (Go (Option Sink × Option String)) × World :=
  let (has, w) := Cache.Contains namespacedName w
  if has then
    let (r, w) := Cache.Get namespacedName w
    match r with
    | (_, some err) => (some (Go.ret (none, some err)), w)
    | (sink, none) =>
      let cached : Option Slack :=
        match sink with
        | some (Sink.slack p) => p
        | _ => none
      match cached with
      | none => (some (Go.panic "invalid memory address or nil pointer dereference"), w)
      | some c =>
        if c.config = slackConfig then
          (some (Go.ret (sink, none)), w)
        else
          (none, Cache.Remove namespacedName w)
  else
    (none, w)

/-- The construction of the Slack case of `NewSink` (lines 75-81). The error of
`NewSlackSink` is stored in the outer `err`, which the next line shadows; the pointer
that `NewSlackSink` returned, nil or not, is stored in the interface variable `sink`. -/
def NewSink.slackBuild (ctx : Nat) (namespacedName : String) (slackConfig : SlackConfig)
    (w : World) : Go (Option Sink × Option String) × World :=
  let (r, w) := NewSlackSink ctx slackConfig w
  let sink : Sink := Sink.slack r.1
  let (err, w) := Cache.Add namespacedName sink cacheTTL w
  match err with
  | some e => (Go.ret (none, some e), w)
  | none => (Go.ret (some sink, none), w)

/-- The `if cache.Contains(...)` block of the Mattermost case of `NewSink`. -/
def NewSink.mattermostLookup (namespacedName : String) (mattermostConfig : MattermostConfig)
    (w : World) : Option (Go (Option Sink × Option String)) × World :=
  let (has, w) := Cache.Contains namespacedName w
  if has then
    let (r, w) := Cache.Get namespacedName w
    match r with
    | (_, some err) => (some (Go.ret (none, some err)), w)
    | (sink, none) =>
      let cached : Option Mattermost :=
        match sink with
        | some (Sink.mattermost p) => p
        | _ => none
      match cached with
      | none => (some (Go.panic "invalid memory address or nil pointer dereference"), w)
      | some c =>
        if c.config = mattermostConfig then
          (some (Go.ret (sink, none)), w)
        else
          (none, Cache.Remove namespacedName w)
  else
    (none, w)

/-- The construction of the Mattermost case of `NewSink`. -/
def NewSink.mattermostBuild (env : Env) (namespacedName : String)
    (mattermostConfig : MattermostConfig) (w : World) :
    Go (Option Sink × Option String) × World :=
  let r := env.newMattermostSink w.nextAddr mattermostConfig
  let w := { w.emit (Effect.mattermostNew mattermostConfig) with nextAddr := w.nextAddr + 1 }
  let sink : Sink := Sink.mattermost r.1
  let (err, w) := Cache.Add namespacedName sink cacheTTL w
  match err with
  | some e => (Go.ret (none, some e), w)
  | none => (Go.ret (some sink, none), w)

/-- The function `NewSink`. The result is the pair `(Sink, error)`; a nil interface is
`none`. -/
def NewSink (env : Env) (ctx : Nat) (namespacedName : String) (sinkType : SinkType)
    (config : Config) (w : World) : Go (Option Sink × Option String) × World :=
  if indexOf sinkType < 0 then
    (Go.ret (none, some ("sink " ++ sinkType ++ " not implemented")), w)
  else if sinkType = SinkTypeSlack then
    match config with
    | Config.slack slackConfig =>
      match NewSink.slackLookup namespacedName slackConfig w with
      | (some r, w) => (r, w)
      | (none, w) => NewSink.slackBuild ctx namespacedName slackConfig w
    | _ => (Go.ret (none, some "faild to cast as slack.SlackConfig"), w)
  else if sinkType = SinkTypeMattermost then
    match config with
    | Config.mattermost mattermostConfig =>
      match NewSink.mattermostLookup namespacedName mattermostConfig w with
      | (some r, w) => (r, w)
      | (none, w) => NewSink.mattermostBuild env namespacedName mattermostConfig w
    | _ => (Go.ret (none, some "faild to cast as mattermost.MattermostConfig"), w)
  else
    (Go.ret (none, some "faild to find appropriate sink provider"), w)

/-! ## slack.go: delivery -/

/-- The blocks and the attachment that `Slack.ForwardEvent` composes for a payload. -/
def Slack.eventMessage (payload : Payload) : Message :=
  let headerText := "🔔Cluster: *" ++ mapGet payload.CommonLabels "cluster_name" ++
    "*, Type: *" ++ payload.Level ++ "*, Reason: *" ++ mapGet payload.ExtraLabels "reason" ++
    "*, Kind: *" ++ mapGet payload.ExtraLabels "kind" ++ "* \n\n 🚦*Alert:* " ++ payload.Note
  let podText := "• *namespace:* " ++ mapGet payload.ExtraLabels "namespace" ++
    "\n• *pod:* " ++ mapGet payload.ExtraLabels "pod"
  let timeStampText := "🔛 *First seen:* " ++ payload.FirstSeen ++
    "\n 🔚 *Last Seen:* " ++ payload.LastSeen
  let chatGptAttachment : Attachment :=
    ⟨"🆘 *Use OpenAI Chat API  to analyse the Event and suggest you a course of action:*",
     "Your client is not supported", "askGPT", "#3AA3E3",
     [⟨"askgpt_action", "💬 Ask ChatGPT for help", "button", payload.Note, "primary"⟩]⟩
  ⟨[Block.divider, Block.sectionText "mrkdwn" headerText, Block.sectionText "mrkdwn" podText,
    Block.sectionText "mrkdwn" timeStampText], [chatGptAttachment], true⟩

/-- The file that `Slack.ForwardEvent` uploads for a payload. -/
def Slack.logUpload (s : Slack) (payload : Payload) : FileUploadParameters :=
  let filename := mapGet payload.ExtraLabels "namespace" ++ "/" ++
    mapGet payload.ExtraLabels "pod" ++ ".log"
  ⟨filename, filename, "log", payload.Logs, [s.config.ChannelID], filename⟩

/-- The method `Slack.ForwardEvent` on a non-nil receiver. -/
def Slack.ForwardEvent (env : Env) (s : Slack) (payload : Payload) (w : World) :
    Option String × World :=
  let msg := Slack.eventMessage payload
  let err := env.postMessage w.trace.length s.config.ChannelID msg
  let w := w.emit (Effect.postMessage s.addr s.config.ChannelID msg)
  match err with
  | some e => (some e, w)
  | none =>
    if TrimSpace payload.Logs ≠ "" then
      let params := s.logUpload payload
      let err := env.uploadFile w.trace.length params
      let w := w.emit (Effect.uploadFile s.addr params)
      match err with
      | some e => (some e, w)
      | none => (none, w.emit (Effect.sleep slackApiRateLimit))
    else
      (none, w.emit (Effect.sleep slackApiRateLimit))

/-- The call `sink.ForwardEvent(payload)` through the interface: with a nil `*Slack`
inside, the method body panics when it reads `s.client`, before any call to the API. -/
def Sink.ForwardEvent (env : Env) (sink : Sink) (payload : Payload) (w : World) :
    Go (Option String) × World :=
  match sink with
  | Sink.slack none => (Go.panic "invalid memory address or nil pointer dereference", w)
  | Sink.slack (some s) =>
    let (err, w) := s.ForwardEvent env payload w
    (Go.ret err, w)
  | Sink.mattermost p =>
    (env.mattermostForwardEvent w.trace.length p payload,
     w.emit (Effect.mattermostForward p payload))

/-- The function `ForwardEvent` of package sinks. -/
def ForwardEvent (env : Env) (ctx : Nat) (namespacedName : String) (sinkType : SinkType)
    (config : Config) (payload : Payload) (w : World) : Go (Option String) × World :=
  match NewSink env ctx namespacedName sinkType config w with
  | (Go.panic m, w) => (Go.panic m, w)
  | (Go.ret (_, some err), w) => (Go.ret (some err), w)
  | (Go.ret (none, none), w) =>
    (Go.panic "invalid memory address or nil pointer dereference", w)
  | (Go.ret (some sink, none), w) => sink.ForwardEvent env payload w

/-! ## openai.go -/

/-- The function `openai.NewClient`: the package keeps the first client it built. A
client is identified by the token it was built with. -/
def openai.NewClient (authToken : String) (w : World) : String × World :=
  match w.openaiClient with
  | none => (authToken, { w with openaiClient := some authToken })
  | some c => (c, w)

/-- The function `openai.NewClientFromEnviroment`. -/
def openai.NewClientFromEnviroment (env : Env) (w : World) : Except String String × World :=
  match env.lookupEnv "OPENAI_API_KEY" with
  | none => (Except.error "unable to find env variable OPENAI_API_KEY", w)
  | some authToken =>
    let (c, w) := openai.NewClient authToken w
    (Except.ok c, w)

/-- The method `openai.Client.CreateChatCompletion`: `response.Choices[0]` panics when
the response has no choice. -/
def openai.CreateChatCompletion (env : Env) (client : String) (prompt : String) (w : World) :
    Go (String × Option String) × World :=
  let r := env.createChatCompletion w.trace.length client prompt
  let w := w.emit (Effect.chatCompletion client prompt)
  match r with
  | Except.error err => (Go.ret ("", some err), w)
  | Except.ok [] => (Go.panic "index out of range [0] with length 0", w)
  | Except.ok (content :: _) => (Go.ret (content, none), w)

/-! ## slack.go: the interactive listener -/

/-- The method `Slack.getChatGptResponse`; `errors.Wrap` puts its text and a colon before
the text of the wrapped error. -/
def Slack.getChatGptResponse (env : Env) (_s : Slack) (prompt : String) (w : World) :
    Go (String × Option String) × World :=
  match openai.NewClientFromEnviroment env w with
  | (Except.error err, w) =>
    (Go.ret ("", some ("failed to get an openai client" ++ ": " ++ err)), w)
  | (Except.ok client, w) =>
    match openai.CreateChatCompletion env client prompt w with
    | (Go.panic m, w) => (Go.panic m, w)
    | (Go.ret (_, some err), w) => (Go.ret ("", some err), w)
    | (Go.ret (completion, none), w) => (Go.ret (completion, none), w)

/-- The blocks that `Slack.postChatGptResponse` composes. -/
def Slack.chatGptMessage (prompt response : String) : Message :=
  let headerText := "🤖 *ChatGPT response for the Event:* \n\n🚦 " ++ prompt ++ " :"
  ⟨[Block.sectionText "mrkdwn" headerText, Block.sectionText "mrkdwn" response, Block.divider],
   [], true⟩

/-- The method `Slack.postChatGptResponse`. -/
def Slack.postChatGptResponse (env : Env) (s : Slack) (prompt response : String) (w : World) :
    Option String × World :=
  let msg := Slack.chatGptMessage prompt response
  let err := env.postMessage w.trace.length s.config.ChannelID msg
  (err, w.emit (Effect.postMessage s.addr s.config.ChannelID msg))

/-- The struct `slack.InteractionCallback`, reduced to
`ActionCallback.AttachmentActions`. -/
structure InteractionCallback where
  AttachmentActions : List AttachmentAction
deriving DecidableEq, Repr

/-- The dynamic type of `event.Data`. -/
inductive EventData where
  | interactionCallback (cb : InteractionCallback)
  | other
deriving DecidableEq, Repr

/-- The struct `socketmode.Event`; `Request` is the envelope to acknowledge, which the
library sets on every event it reads from the socket. -/
structure SocketEvent where
  Type_ : String
  Data : EventData
  Request : String
deriving DecidableEq, Repr

def EventTypeInteractive : String := "interactive"

/-- Which case one `select` of the listener takes. -/
inductive Select where
  | done
  | event (e : SocketEvent)
deriving DecidableEq, Repr

/-- Where the listener is when its input is used up: blocked in `select`, or returned. -/
inductive ListenerState where
  | listening
  | closed
deriving DecidableEq, Repr

/-- The case `socketmode.EventTypeInteractive` of `listenSocketEvents` for one event. -/
def Slack.handleInteractive (env : Env) (s : Slack) (event : SocketEvent) (w : World) :
    Go Unit × World :=
  match event.Data with
  | EventData.other =>
    (Go.ret (), w.emit (Effect.log "could not typecast event.Data to: %t\n"))
  | EventData.interactionCallback interactionCallback =>
    let w := w.emit (Effect.ack s.addr event.Request)
    match interactionCallback.AttachmentActions with
    | [] => (Go.panic "index out of range [0] with length 0", w)
    | action :: _ =>
      let prompt := action.Value
      match s.getChatGptResponse env prompt w with
      | (Go.panic m, w) => (Go.panic m, w)
      | (Go.ret (response, err), w) =>
        let (response, w) :=
          match err with
          | some e => ("⚠ " ++ e, w.emit (Effect.log "failed to complete with chatgpt"))
          | none => (response, w)
        if TrimSpace response ≠ "" then
          match s.postChatGptResponse env prompt response w with
          | (some _, w) =>
            (Go.ret (), w.emit (Effect.log "failed to send chatgpt response back to channel"))
          | (none, w) => (Go.ret (), w)
        else
          (Go.ret (), w)

/-- The `for`/`select` loop of `listenSocketEvents`, driven by the cases taken. The
context of the call is the one that `handlerSocketMode` recorded for the client; the case
`<-ctx.Done()` can be taken only when that context is done, and then the function
returns. The deferred log line runs when the function returns and when a panic unwinds
it, and in both cases the listener has ended. With its input used up the listener is
blocked in `select`. -/
def Slack.listenLoop (env : Env) (s : Slack) : List Select → World → Go ListenerState × World
  | [], w => (Go.ret ListenerState.listening, w)
  | Select.done :: rest, w =>
    if w.contextDone s.addr then
      (Go.ret ListenerState.closed,
       ((w.emit (Effect.log "shutting down slack socketmode listener")).emit
         (Effect.log "closed slack socketmode listener")).stop s.addr)
    else
      Slack.listenLoop env s rest w
  | Select.event event :: rest, w =>
    if event.Type_ = EventTypeInteractive then
      match s.handleInteractive env event w with
      | (Go.panic m, w) =>
        (Go.panic m, (w.emit (Effect.log "closed slack socketmode listener")).stop s.addr)
      | (Go.ret (), w) => Slack.listenLoop env s rest w
    else
      Slack.listenLoop env s rest w

/-- The method `Slack.listenSocketEvents`. -/
def Slack.listenSocketEvents (env : Env) (s : Slack) (input : List Select) (w : World) :
    Go ListenerState × World :=
  s.listenLoop env input (w.emit (Effect.log "starting slack socketmode listener"))

/-! ## event_controller.go -/

/-- The struct `v1core.ObjectReference`, with the fields the controller reads. -/
structure ObjectReference where
  Namespace : String
  Name : String
  Kind : String
deriving DecidableEq, Repr

/-- The struct `eventsv1.Event`, with the fields the controller reads. -/
structure Event where
  Regarding : ObjectReference
  Type_ : String
  Reason : String
  Note : String
  DeprecatedFirstTimestamp : Time
  DeprecatedLastTimestamp : Time
deriving DecidableEq, Repr

/-- Modelled from the spec: `v1alpha1.SinksConfigSpec` is declared in a file that is not
among the sources; the controller reads its exclusion list and passes its `Slack` field
to `processSink` as the `config interface{}`. -/
structure SinksConfigSpec where
  Slack : Config
  ExcludedReasons : List String
deriving DecidableEq, Repr

/-- Modelled from the spec: `v1alpha1.SinksConfig` is declared in a file that is not among
the sources; the controller reads its namespace, name and spec. -/
structure SinksConfig where
  Namespace : String
  Name : String
  Spec : SinksConfigSpec
deriving DecidableEq, Repr

/-- The struct `ctrl.Result`. -/
structure Result where
  Requeue : Bool
  RequeueAfter : Nat
deriving DecidableEq, Repr

/-- The struct `ctrl.Request`, by its `NamespacedName`. -/
structure Request where
  Namespace : String
  Name : String
deriving DecidableEq, Repr

/-- The struct `EventReconciler`, with the field that is data. -/
structure EventReconciler where
  CommonLabels : List (String × String)
deriving DecidableEq, Repr

/-- The answers of the cluster API to the calls of the controller. -/
structure Cluster where
  /-- Result of `r.Get` for an event: the event, or an error with `IsNotFound` and text. -/
  getEvent : String → String → Except (Bool × String) Event
  /-- Result of `r.Get` for a pod: the names of its containers, or an error. -/
  getPod : String → String → Except String (List String)
  /-- Result of opening the log stream of a container and of reading it to the end. -/
  getLogs : String → String → String → Time → Except String (Except String String)
  /-- Result of `r.List` for the sinks configurations of a namespace. -/
  listSinksConfigs : String → List SinksConfig × Option String

/-- The method `EventReconciler.getPodLogs`. -/
def EventReconciler.getPodLogs (k : Cluster) (namespace_ podName : String) (since : Time) :
    Go (String × Option String) :=
  match k.getPod namespace_ podName with
  | Except.error err => Go.ret ("", some err)
  | Except.ok [] => Go.panic "index out of range [0] with length 0"
  | Except.ok (container :: _) =>
    match k.getLogs namespace_ podName container since with
    | Except.error err => Go.ret ("", some err)
    | Except.ok (Except.error err) => Go.ret ("", some err)
    | Except.ok (Except.ok logs) => Go.ret (logs, none)

/-- The method `EventReconciler.processSink`. -/
def EventReconciler.processSink (env : Env) (ctx : Nat) (namespacedName : String)
    (sinkType : SinkType) (config : Config) (payload : Payload) (w : World) :
    Go (Option String) × World :=
  match ForwardEvent env ctx namespacedName sinkType config payload w with
  | (Go.panic m, w) => (Go.panic m, w)
  | (Go.ret (some err), w) => (Go.ret (some err), w)
  | (Go.ret none, w) => (Go.ret none, w)

/-- The key under which the dispatch loop resolves a configured channel. -/
def EventReconciler.namespacedName (r : EventReconciler) (sinksConfig : SinksConfig) : String :=
  mapGet r.CommonLabels "cluster_name" ++ "/" ++ sinksConfig.Namespace ++ "/" ++
    sinksConfig.Name

/-- The loop over `sinksConfigList.Items` in `Reconcile` (lines 120-134): `some r` is a
return from `Reconcile` (or a panic that unwinds it), `none` is the end of the loop. -/
def EventReconciler.dispatchLoop (env : Env) (r : EventReconciler) (ctx : Nat) (event : Event)
    (payload : Payload) :
    List SinksConfig → World → Option (Go (Result × Option String)) × World
  | [], w => (none, w)
  | sinksConfig :: rest, w =>
    if sinksConfig.Spec.ExcludedReasons.contains event.Reason then
      EventReconciler.dispatchLoop env r ctx event payload rest w
    else
      let sinkType := "slack"
      let slackConfig := sinksConfig.Spec.Slack
      let namespacedName := r.namespacedName sinksConfig
      let (o, w) :=
        EventReconciler.processSink env ctx namespacedName sinkType slackConfig payload w
      match o with
      | Go.panic m => (some (Go.panic m), w)
      | Go.ret (some err) =>
        (some (Go.ret (⟨false, 5 * second⟩, some err)),
         w.emit (Effect.log "failed to forward to sink: %s"))
      | Go.ret none => EventReconciler.dispatchLoop env r ctx event payload rest w

/-- The statement `if err != nil { logger.Error(err, msg) }`. -/
def logIfError (err : Option String) (msg : String) (w : World) : World :=
  match err with
  | some _ => w.emit (Effect.log msg)
  | none => w

/-- The method `EventReconciler.Reconcile`. -/
def EventReconciler.Reconcile (env : Env) (k : Cluster) (r : EventReconciler) (ctx : Nat)
    (req : Request) (w : World) : Go (Result × Option String) × World :=
  match k.getEvent req.Namespace req.Name with
  | Except.error (true, _) => (Go.ret (⟨false, 0⟩, none), w)
  | Except.error (false, err) =>
    (Go.ret (⟨false, 0⟩, some err), w.emit (Effect.log "unable to fetch event"))
  | Except.ok event =>
    let extraLabels := [("namespace", event.Regarding.Namespace), ("pod", event.Regarding.Name),
      ("kind", event.Regarding.Kind), ("type", event.Type_), ("reason", event.Reason)]
    if event.Type_ ≠ "Normal" then
      let fetched : Go (String × Option String) :=
        if ToLower event.Regarding.Kind = "pod" then
          EventReconciler.getPodLogs k event.Regarding.Namespace event.Regarding.Name
            event.DeprecatedFirstTimestamp
        else
          Go.ret ("", none)
      match fetched with
      | Go.panic m => (Go.panic m, w)
      | Go.ret (out, err) =>
        let w := logIfError err "failed to get pod logs" w
        let logs := out
        let listed := k.listSinksConfigs req.Namespace
        let w := logIfError listed.2 "failed to load sinks config list" w
        let payload := NewPayload event.Type_ event.Note r.CommonLabels extraLabels
          event.DeprecatedFirstTimestamp event.DeprecatedLastTimestamp logs
        match EventReconciler.dispatchLoop env r ctx event payload listed.1 w with
        | (some res, w) => (res, w)
        | (none, w) =>
          let w := w.emit (Effect.promtail "warn" extraLabels event.Note)
          (Go.ret (⟨false, 0⟩, none), w.emit (Effect.log "processed event"))
    else
      let w := w.emit (Effect.promtail "info" extraLabels event.Note)
      (Go.ret (⟨false, 0⟩, none), w.emit (Effect.log "processed event"))

/-! ## Reading a trace -/

/-- The message posts of a trace, in order. -/
def posts : List Effect → List (Nat × String × Message)
  | [] => []
  | Effect.postMessage a c m :: t => (a, c, m) :: posts t
  | _ :: t => posts t

/-- The file uploads of a trace, in order. -/
def uploads : List Effect → List (Nat × FileUploadParameters)
  | [] => []
  | Effect.uploadFile a p :: t => (a, p) :: uploads t
  | _ :: t => uploads t

/-- The entry of the cache under the key, if there is one, is a Slack client behind a
non-nil pointer. -/
def World.slackEntryOk (w : World) (id : String) : Bool :=
  match (w.cache.sinks.Get id).1 with
  | none => true
  | some (Sink.slack (some _)) => true
  | some _ => false

/-- The effect may come from resolving and serving the channel `id`: if it is an
operation of the cache, its key is `id`. -/
def Effect.within (id : String) : Effect → Bool
  | Effect.cacheHas k => k == id
  | Effect.cacheGet k => k == id
  | Effect.cacheSet k _ _ => k == id
  | Effect.cacheRemove k => k == id
  | _ => true

/-- The state `w'` comes after `w`: no listener ended, no context was cancelled,
listeners were only added, and the trace grew by effects that satisfy `P`. -/
def World.Step (P : Effect → Bool) (w w' : World) : Prop :=
  w'.stopped = w.stopped ∧ w'.cancelled = w.cancelled ∧
  (∃ l, w'.listeners = w.listeners ++ l) ∧
  ∃ d, w'.trace = w.trace ++ d ∧ d.all P = true

/-- The configured channels whose exclusion list does not contain the reason of the
event, in list order. -/
def EventReconciler.attemptable (event : Event) (items : List SinksConfig) : List SinksConfig :=
  items.filter (fun sc => !sc.Spec.ExcludedReasons.contains event.Reason)

/-! ## Sample inputs -/

/-- Surroundings in which every call to Slack succeeds and `OPENAI_API_KEY` is not set. -/
def sampleEnv : Env :=
  ⟨fun _ _ _ => none, fun _ _ => none, fun _ => none,
   fun _ _ _ => Except.ok ["Check resource limits"], fun a c => (some ⟨a, c⟩, none),
   fun _ _ _ => Go.ret none⟩

/-- A Slack configuration whose bot token lacks the prefix `xoxb-`. -/
def malformedConfig : SlackConfig := ⟨"bot-token", "C0123", "xapp-1-A", false⟩

/-- A Slack configuration that passes the checks of `NewSlackSink`. -/
def validConfig : SlackConfig := ⟨"xoxb-1", "C0123", "xapp-1-A", false⟩

/-- The configuration `validConfig` with another channel. -/
def otherConfig : SlackConfig := ⟨"xoxb-1", "C0456", "xapp-1-A", false⟩

/-- The state after one successful `NewSink` call from the initial state. -/
def worldWithClient : World :=
  (NewSink sampleEnv 7 "prod/default/alerts" SinkTypeSlack (Config.slack validConfig)
    World.initial).2

/-- A warning event about a pod. -/
def sampleEvent : Event :=
  ⟨⟨"default", "api-7f", "Pod"⟩, "Warning", "BackOff", "CrashLoopBackOff", "t0", "t1"⟩

/-- A reconciler of the cluster `prod`. -/
def sampleReconciler : EventReconciler := ⟨[("cluster_name", "prod")]⟩

/-- A configured channel whose bot token lacks the prefix `xoxb-`. -/
def malformedChannel : SinksConfig := ⟨"default", "m", ⟨Config.slack malformedConfig, []⟩⟩

/-- A cluster that holds `sampleEvent`, a pod with one container and `malformedChannel`. -/
def malformedCluster : Cluster :=
  ⟨fun _ _ => Except.ok sampleEvent, fun _ _ => Except.ok ["app"],
   fun _ _ _ _ => Except.ok (Except.ok ""), fun _ => ([malformedChannel], none)⟩

/-- The payload of `sampleEvent` without a log excerpt. -/
def samplePayload : Payload :=
  NewPayload "Warning" "CrashLoopBackOff" [("cluster_name", "prod")]
    [("namespace", "default"), ("pod", "api-7f"), ("kind", "Pod"), ("type", "Warning"),
      ("reason", "BackOff")] "t0" "t1" ""

/-- The payload of `sampleEvent` with a log excerpt of one space. -/
def blankLogsPayload : Payload :=
  NewPayload "Warning" "CrashLoopBackOff" [("cluster_name", "prod")]
    [("namespace", "default"), ("pod", "api-7f"), ("kind", "Pod"), ("type", "Warning"),
      ("reason", "BackOff")] "t0" "t1" " "

/-- After `SetWithExpire`, `Get` of the key returns the value that was set. -/
theorem GCache.Get_SetWithExpire (g : GCache) (id : String) (v : Sink) (t : Nat) :
    GCache.Get (g.SetWithExpire id v t).1 id = (some v, none) := by
  simp [GCache.Get, GCache.SetWithExpire]

/-- After `SetWithExpire`, `Has` of the key holds. -/
theorem GCache.Has_SetWithExpire (g : GCache) (id : String) (v : Sink) (t : Nat) :
    GCache.Has (g.SetWithExpire id v t).1 id = true := by
  simp [GCache.Has, GCache.SetWithExpire]

/-- A key that `Get` finds is a key that `Has` reports. -/
theorem GCache.Has_of_Get (g : GCache) (id : String) (v : Sink)
    (h : (GCache.Get g id).1 = some v) :
    GCache.Has g id = true := by
  unfold GCache.Get at h
  split at h
  · rename_i e he
    simp only [GCache.Has, List.any_eq_true]
    have h2 := List.find?_some he
    exact ⟨e, List.mem_of_find?_eq_some he, h2⟩
  · simp at h

/-- A key that `Has` reports is a key that `Get` finds. -/
theorem GCache.Get_of_Has (g : GCache) (id : String) (h : GCache.Has g id = true) :
    ∃ v, GCache.Get g id = (some v, none) := by
  simp only [GCache.Has, List.any_eq_true] at h
  obtain ⟨e, he, hk⟩ := h
  unfold GCache.Get
  cases hf : List.find? (fun e => e.1 == id) g with
  | none =>
    rw [List.find?_eq_none] at hf
    exact absurd hk (hf e he)
  | some e1 => exact ⟨e1.2, rfl⟩

/-- When `Get` returns a value it returns no error. -/
theorem GCache.Get_snd_of_fst (g : GCache) (id : String) (v : Sink)
    (h : (GCache.Get g id).1 = some v) :
    GCache.Get g id = (some v, none) := by
  unfold GCache.Get at h ⊢
  split at h
  · rename_i e he
    simp at h
    simp [he, h]
  · simp at h

/-- The method `Cache.Get` adds one `cacheGet` to the trace and changes nothing else. -/
theorem Cache.Get_snd (id : String) (w : World) :
    (Cache.Get id w).2 = w.emit (Effect.cacheGet id) := by
  unfold Cache.Get
  split <;> rfl

/-- Removing a key does not change what `Get` returns for another key. -/
theorem GCache.Get_Remove_of_ne (g : GCache) (id k : String) (h : k ≠ id) :
    GCache.Get (g.Remove id) k = GCache.Get g k := by
  have hf : List.find? (fun e => e.1 == k) (g.Remove id) = List.find? (fun e => e.1 == k) g := by
    unfold GCache.Remove
    induction g with
    | nil => rfl
    | cons a t ih =>
      obtain ⟨a1, a2⟩ := a
      by_cases ha : a1 = id
      · subst ha
        have hk : ¬ a1 = k := fun hak => h hak.symm
        simp [List.filter_cons, List.find?_cons, hk, ih]
      · by_cases hk : a1 = k
        · subst hk
          simp [List.filter_cons, List.find?_cons, ha]
        · simp [List.filter_cons, List.find?_cons, ha, hk, ih]
  unfold GCache.Get
  rw [hf]

/-! ## The factory, case by case -/

/-- The type `slack` is in `sinkTypes`. -/
theorem indexOf_slack : ¬ (indexOf SinkTypeSlack < 0) := by decide

/-- The Slack case of `NewSink`: the lookup block, then the construction. -/
theorem NewSink_slack_eq (env : Env) (ctx : Nat) (id : String) (c : SlackConfig) (w : World) :
    NewSink env ctx id SinkTypeSlack (Config.slack c) w =
      match NewSink.slackLookup id c w with
      | (some r, w1) => (r, w1)
      | (none, w1) => NewSink.slackBuild ctx id c w1 := by
  simp [NewSink, indexOf_slack]

/-- The lookup block on a key that the cache does not hold. -/
theorem NewSink.slackLookup_miss (id : String) (c : SlackConfig) (w : World)
    (h : w.cache.sinks.Has id = false) :
    NewSink.slackLookup id c w = (none, w.emit (Effect.cacheHas id)) := by
  simp [NewSink.slackLookup, Cache.Contains, h]

/-- The lookup block on a key that the cache holds, by the value found. -/
theorem NewSink.slackLookup_found (id : String) (c : SlackConfig) (w : World) (v : Sink)
    (h : (w.cache.sinks.Get id).1 = some v) :
    NewSink.slackLookup id c w =
      match v with
      | Sink.slack (some s) =>
        if s.config = c then
          (some (Go.ret (some v, none)), (w.emit (Effect.cacheHas id)).emit (Effect.cacheGet id))
        else
          (none, Cache.Remove id ((w.emit (Effect.cacheHas id)).emit (Effect.cacheGet id)))
      | _ => (some (Go.panic "invalid memory address or nil pointer dereference"),
          (w.emit (Effect.cacheHas id)).emit (Effect.cacheGet id)) := by
  have h1 := GCache.Has_of_Get _ _ _ h
  have h2 := GCache.Get_snd_of_fst _ _ _ h
  cases v with
  | slack p =>
    cases p with
    | none => simp [NewSink.slackLookup, Cache.Contains, Cache.Get, World.emit, h1, h2]
    | some s =>
      by_cases hc : s.config = c
      · simp [NewSink.slackLookup, Cache.Contains, Cache.Get, World.emit, h1, h2, hc]
      · simp [NewSink.slackLookup, Cache.Contains, Cache.Get, World.emit, h1, h2, hc]
  | mattermost p => simp [NewSink.slackLookup, Cache.Contains, Cache.Get, World.emit, h1, h2]

/-- The construction with a configuration that passes the checks of `NewSlackSink`. -/
theorem NewSink.slackBuild_valid (ctx : Nat) (id : String) (c : SlackConfig) (w : World)
    (hbot : HasPrefix c.BotToken "xoxb-" = true) (happ : HasPrefix c.AppLevelToken "xapp-" = true) :
    NewSink.slackBuild ctx id c w =
      (Go.ret (some (Sink.slack (some ⟨w.nextAddr, c, SinkTypeSlack⟩)), none),
       (Cache.Add id (Sink.slack (some ⟨w.nextAddr, c, SinkTypeSlack⟩)) cacheTTL
         (Slack.init ⟨w.nextAddr, c, SinkTypeSlack⟩ ctx
           { w with nextAddr := w.nextAddr + 1 })).2) := by
  simp [NewSink.slackBuild, NewSlackSink, hbot, happ, Cache.Add, GCache.SetWithExpire]

/-! ## What a call leaves in the state -/

/-- Every state comes after itself. -/
theorem World.Step.refl (P : Effect → Bool) (w : World) : World.Step P w w :=
  ⟨rfl, rfl, ⟨[], by simp⟩, [], by simp, by simp⟩

/-- Steps compose. -/
theorem World.Step.trans {P : Effect → Bool} {w1 w2 w3 : World}
    (h1 : World.Step P w1 w2) (h2 : World.Step P w2 w3) : World.Step P w1 w3 := by
  obtain ⟨s1, c1, ⟨l1, hl1⟩, d1, ht1, hp1⟩ := h1
  obtain ⟨s2, c2, ⟨l2, hl2⟩, d2, ht2, hp2⟩ := h2
  refine ⟨s2.trans s1, c2.trans c1, ⟨l1 ++ l2, by rw [hl2, hl1, List.append_assoc]⟩, d1 ++ d2,
    by rw [ht2, ht1, List.append_assoc], ?_⟩
  rw [List.all_append, hp1, hp2]
  rfl

/-- One effect that satisfies the predicate is a step. -/
theorem World.Step.emit {P : Effect → Bool} (w : World) (e : Effect) (h : P e = true) :
    World.Step P w (w.emit e) :=
  ⟨rfl, rfl, ⟨[], by simp [World.emit]⟩, [e], rfl, by simp [h]⟩

/-- A change that leaves the trace alone is a step. -/
theorem World.Step.of_eq {P : Effect → Bool} (w w' : World) (hs : w'.stopped = w.stopped)
    (hc : w'.cancelled = w.cancelled) (hl : ∃ l, w'.listeners = w.listeners ++ l)
    (ht : w'.trace = w.trace) : World.Step P w w' :=
  ⟨hs, hc, hl, [], by simp [ht], by simp⟩

/-- The method `Cache.Contains` only touches its key. -/
theorem Cache.Contains_step (id : String) (w : World) :
    World.Step (Effect.within id) w (Cache.Contains id w).2 :=
  World.Step.emit w _ (by simp [Effect.within])

/-- The method `Cache.Get` only touches its key. -/
theorem Cache.Get_step (id : String) (w : World) :
    World.Step (Effect.within id) w (Cache.Get id w).2 := by
  rw [Cache.Get_snd]
  exact World.Step.emit w _ (by simp [Effect.within])

/-- The method `Cache.Remove` only touches its key. -/
theorem Cache.Remove_step (id : String) (w : World) :
    World.Step (Effect.within id) w (Cache.Remove id w) :=
  (World.Step.emit w (Effect.cacheRemove id) (by simp [Effect.within])).trans
    (World.Step.of_eq _ _ rfl rfl ⟨[], by simp [Cache.Remove]⟩ rfl)

/-- The method `Cache.Add` only touches its key. -/
theorem Cache.Add_step (id : String) (sink : Sink) (t : Nat) (w : World) :
    World.Step (Effect.within id) w (Cache.Add id sink t w).2 :=
  (World.Step.emit w (Effect.cacheSet id sink t) (by simp [Effect.within])).trans
    (World.Step.of_eq _ _ rfl rfl ⟨[], by simp [Cache.Add]⟩ rfl)

/-- The constructor `NewSlackSink` does not touch the cache. -/
theorem NewSlackSink_step (id : String) (ctx : Nat) (c : SlackConfig) (w : World) :
    World.Step (Effect.within id) w (NewSlackSink ctx c w).2 := by
  unfold NewSlackSink
  split
  · exact World.Step.refl _ _
  · split
    · exact World.Step.refl _ _
    · exact ⟨rfl, rfl, ⟨_, rfl⟩, _,
        by simp [Slack.init, Slack.handlerSocketMode, World.emit]; rfl,
        by simp [Effect.within]⟩

/-- The lookup block of the Slack case only touches its key. -/
theorem NewSink.slackLookup_step (id : String) (c : SlackConfig) (w : World) :
    World.Step (Effect.within id) w (NewSink.slackLookup id c w).2 := by
  unfold NewSink.slackLookup
  have h1 := Cache.Contains_step id w
  generalize Cache.Contains id w = x at h1
  obtain ⟨has, w1⟩ := x
  simp only at h1 ⊢
  split
  · have h2 := Cache.Get_step id w1
    generalize Cache.Get id w1 = y at h2
    obtain ⟨r, w2⟩ := y
    simp only at h2 ⊢
    have h12 := h1.trans h2
    split
    · exact h12
    · split
      · exact h12
      · split
        · exact h12
        · exact h12.trans (Cache.Remove_step id w2)
  · exact h1

/-- The construction of the Slack case only touches its key. -/
theorem NewSink.slackBuild_step (ctx : Nat) (id : String) (c : SlackConfig) (w : World) :
    World.Step (Effect.within id) w (NewSink.slackBuild ctx id c w).2 := by
  unfold NewSink.slackBuild
  have h1 := NewSlackSink_step id ctx c w
  generalize NewSlackSink ctx c w = x at h1
  obtain ⟨r, w1⟩ := x
  simp only at h1 ⊢
  have h2 := Cache.Add_step id (Sink.slack r.1) cacheTTL w1
  generalize Cache.Add id (Sink.slack r.1) cacheTTL w1 = y at h2
  obtain ⟨err, w2⟩ := y
  simp only at h2 ⊢
  split <;> exact h1.trans h2

/-- The lookup block of the Mattermost case only touches its key. -/
theorem NewSink.mattermostLookup_step (id : String) (c : MattermostConfig) (w : World) :
    World.Step (Effect.within id) w (NewSink.mattermostLookup id c w).2 := by
  unfold NewSink.mattermostLookup
  have h1 := Cache.Contains_step id w
  generalize Cache.Contains id w = x at h1
  obtain ⟨has, w1⟩ := x
  simp only at h1 ⊢
  split
  · have h2 := Cache.Get_step id w1
    generalize Cache.Get id w1 = y at h2
    obtain ⟨r, w2⟩ := y
    simp only at h2 ⊢
    have h12 := h1.trans h2
    split
    · exact h12
    · split
      · exact h12
      · split
        · exact h12
        · exact h12.trans (Cache.Remove_step id w2)
  · exact h1

/-- The construction of the Mattermost case only touches its key. -/
theorem NewSink.mattermostBuild_step (env : Env) (id : String) (c : MattermostConfig)
    (w : World) :
    World.Step (Effect.within id) w (NewSink.mattermostBuild env id c w).2 := by
  unfold NewSink.mattermostBuild
  have h1 : World.Step (Effect.within id) w
      { w.emit (Effect.mattermostNew c) with nextAddr := w.nextAddr + 1 } :=
    (World.Step.emit w (Effect.mattermostNew c) (by simp [Effect.within])).trans
      (World.Step.of_eq _ _ rfl rfl ⟨[], by simp⟩ rfl)
  simp only
  generalize ({ w.emit (Effect.mattermostNew c) with nextAddr := w.nextAddr + 1 } : World) = w1
    at h1 ⊢
  have h2 := Cache.Add_step id (Sink.mattermost (env.newMattermostSink w.nextAddr c).1)
    cacheTTL w1
  generalize Cache.Add id (Sink.mattermost (env.newMattermostSink w.nextAddr c).1) cacheTTL w1
    = y at h2
  obtain ⟨err, w2⟩ := y
  simp only at h2 ⊢
  split <;> exact h1.trans h2

/-- The function `NewSink` only touches the key it is called with, cancels no context and
removes no listener. -/
theorem NewSink_step (env : Env) (ctx : Nat) (id : String) (sinkType : SinkType)
    (config : Config) (w : World) :
    World.Step (Effect.within id) w (NewSink env ctx id sinkType config w).2 := by
  unfold NewSink
  split
  · exact World.Step.refl _ _
  · split
    · split
      · rename_i c
        have h1 := NewSink.slackLookup_step id c w
        generalize NewSink.slackLookup id c w = x at h1
        obtain ⟨r, w1⟩ := x
        cases r with
        | some r => exact h1
        | none => exact h1.trans (NewSink.slackBuild_step ctx id c w1)
      · exact World.Step.refl _ _
    · split
      · split
        · rename_i c
          have h1 := NewSink.mattermostLookup_step id c w
          generalize NewSink.mattermostLookup id c w = x at h1
          obtain ⟨r, w1⟩ := x
          cases r with
          | some r => exact h1
          | none => exact h1.trans (NewSink.mattermostBuild_step env id c w1)
        · exact World.Step.refl _ _
      · exact World.Step.refl _ _

/-- A listener that is running is still running after a step. -/
theorem World.listenerRunning_of_step {P : Effect → Bool} {w w' : World} (addr : Nat)
    (hs : World.Step P w w') (h : w.listenerRunning addr = true) :
    w'.listenerRunning addr = true := by
  obtain ⟨hst, _, ⟨l, hl⟩, _⟩ := hs
  simp only [World.listenerRunning, hst, hl, List.any_append, Bool.and_eq_true,
    Bool.or_eq_true] at h ⊢
  exact ⟨Or.inl h.1, h.2⟩

/-- A listener that is not cancelled is still not cancelled after a step. -/
theorem World.listenerCancelled_of_step {P : Effect → Bool} {w w' : World} (addr : Nat)
    (hs : World.Step P w w') (h : w.listenerCancelled addr = false) :
    w'.listenerCancelled addr = false := by
  obtain ⟨_, hc, ⟨l, hl⟩, _⟩ := hs
  simp only [World.listenerCancelled, hc, hl, List.all_append] at h ⊢
  rw [h]
  rfl

/-! ## Reading traces -/

/-- The file uploads of two traces in a row. -/
theorem uploads_append (d1 d2 : List Effect) : uploads (d1 ++ d2) = uploads d1 ++ uploads d2 := by
  induction d1 with
  | nil => rfl
  | cons e t ih => cases e <;> simp [uploads, ih]

/-! ## The dispatch loop -/

/-- Once the context a listener was started under is cancelled, that context is done. -/
theorem World.cancel_contextDone (w : World) (addr ctx : Nat) (h : (addr, ctx) ∈ w.listeners) :
    (w.cancel ctx).contextDone addr = true := by
  simp only [World.contextDone, World.cancel, List.any_eq_true]
  exact ⟨(addr, ctx), h, by simp⟩

/-- When its context is done and `select` takes that case, the listener returns and is no
longer running. -/
theorem Slack.listenLoop_closes (env : Env) (s : Slack) (rest : List Select) (w : World)
    (h : w.contextDone s.addr = true) :
    (s.listenLoop env (Select.done :: rest) w).1 = Go.ret ListenerState.closed ∧
    (s.listenLoop env (Select.done :: rest) w).2.listenerRunning s.addr = false := by
  rw [Slack.listenLoop, if_pos h]
  simp [World.listenerRunning, World.stop]

/-- While its context is not done the listener cannot take the case `<-ctx.Done()`. -/
theorem Slack.listenLoop_waits (env : Env) (s : Slack) (rest : List Select) (w : World)
    (h : w.contextDone s.addr = false) :
    s.listenLoop env (Select.done :: rest) w = s.listenLoop env rest w := by
  rw [Slack.listenLoop]
  simp [h]

/-! ## Blank texts -/

/-- The empty text is blank. -/
theorem TrimSpace_empty : TrimSpace "" = "" := by decide

/-- Claim C5. For every sink type other than `slack`, `mattermost` and `microsoft_teams`,
and every identity, configuration and state, `NewSink` returns no sink and the error `sink
<type> not implemented`, and the state is the one it was called in: the trace did not
grow, so the cache was neither read nor written and nothing was constructed. -/
theorem NewSink_unknown_type_rejected (env : Env) (ctx : Nat) (namespacedName : String)
    (sinkType : SinkType) (config : Config) (w : World)
    (h1 : sinkType ≠ "slack") (h2 : sinkType ≠ "mattermost")
    (h3 : sinkType ≠ "microsoft_teams") :
    NewSink env ctx namespacedName sinkType config w =
      (Go.ret (none, some ("sink " ++ sinkType ++ " not implemented")), w) := by
  have h : indexOf sinkType < 0 := by
    simp [indexOf, indexOfFrom, sinkTypes, SinkTypeSlack, SinkTypeMattermost, SinkTypeTeams,
      Ne.symm h1, Ne.symm h2, Ne.symm h3]
  simp [NewSink, h]

/-- Claim C5, at the sink type `teams`. -/
theorem NewSink_unknown_type_rejected_witness :
    ("teams" : String) ≠ "slack" ∧ ("teams" : String) ≠ "mattermost" ∧
    ("teams" : String) ≠ "microsoft_teams" ∧
    NewSink sampleEnv 0 "prod/default/alerts" "teams" (Config.slack validConfig) World.initial =
      (Go.ret (none, some ("sink " ++ "teams" ++ " not implemented")), World.initial) :=
  ⟨by decide, by decide, by decide,
    NewSink_unknown_type_rejected sampleEnv 0 "prod/default/alerts" "teams"
      (Config.slack validConfig) World.initial (by decide) (by decide) (by decide)⟩

/-- Claim C1, at a failing input. The bot token of `malformedConfig` lacks the prefix
`xoxb-` and the initial cache holds nothing, yet `NewSink` returns a sink (an interface
value around the nil `*Slack`) with a nil error, and afterwards the cache holds that value
under the identity: the error of `NewSlackSink` is lost when the next line declares `err`
again. -/
theorem NewSink_malformed_token_caches_nil_client (env : Env) (ctx : Nat) :
    HasPrefix malformedConfig.BotToken "xoxb-" = false ∧
    World.initial.cache.sinks.Has "prod/default/alerts" = false ∧
    (NewSink env ctx "prod/default/alerts" SinkTypeSlack (Config.slack malformedConfig)
      World.initial).1 = Go.ret (some (Sink.slack none), none) ∧
    (NewSink env ctx "prod/default/alerts" SinkTypeSlack (Config.slack malformedConfig)
      World.initial).2.cache.sinks = [("prod/default/alerts", Sink.slack none)] := by
  refine ⟨by decide, by decide, ?_, ?_⟩ <;> rfl

/-- Claim C10, at a failing input. From the initial cache, a `NewSink` call with a
malformed configuration stores a nil `*Slack`, and the next call for the same identity
panics when it reads `cached.config`. -/
theorem NewSink_after_malformed_config_panics (env : Env) (ctx : Nat) :
    World.initial.cache.sinks = [] ∧
    (NewSink env ctx "prod/default/alerts" SinkTypeSlack (Config.slack malformedConfig)
      World.initial).2.cache.sinks = [("prod/default/alerts", Sink.slack none)] ∧
    (NewSink env ctx "prod/default/alerts" SinkTypeSlack (Config.slack malformedConfig)
      (NewSink env ctx "prod/default/alerts" SinkTypeSlack (Config.slack malformedConfig)
        World.initial).2).1 = Go.panic "invalid memory address or nil pointer dereference" := by
  refine ⟨rfl, ?_, ?_⟩ <;> rfl

/-- Claim C2. Let `c` pass the checks of `NewSlackSink`. When the entry of the identity,
if any, is a non-nil Slack client, the first `NewSink` call returns. Whenever the first
call returns, it returns a non-nil Slack client `s` with configuration `c` and no error,
and a second call with the same identity and configuration returns the same pair, so the
same client at the same address, in a state that differs from the one after the first call
by two reads of the cache in the trace only: the cache, the allocator and the listeners
are the same, and the trace has no construction. -/
theorem NewSink_same_config_returns_cached (env : Env) (ctx ctx2 : Nat) (id : String)
    (c : SlackConfig) (w : World)
    (hbot : HasPrefix c.BotToken "xoxb-" = true)
    (happ : HasPrefix c.AppLevelToken "xapp-" = true) :
    (w.slackEntryOk id = true →
      ∃ r w1, NewSink env ctx id SinkTypeSlack (Config.slack c) w = (Go.ret r, w1)) ∧
    (∀ r w1, NewSink env ctx id SinkTypeSlack (Config.slack c) w = (Go.ret r, w1) →
      ∃ s, r = (some (Sink.slack (some s)), none) ∧ s.config = c ∧
        NewSink env ctx2 id SinkTypeSlack (Config.slack c) w1 =
          (Go.ret r,
            { w1 with trace := w1.trace ++ [Effect.cacheHas id, Effect.cacheGet id] })) := by
  have hit : ∀ (w1 : World) (s : Slack), s.config = c →
      (w1.cache.sinks.Get id).1 = some (Sink.slack (some s)) →
      NewSink env ctx2 id SinkTypeSlack (Config.slack c) w1 =
        (Go.ret (some (Sink.slack (some s)), none),
          { w1 with trace := w1.trace ++ [Effect.cacheHas id, Effect.cacheGet id] }) := by
    intro w1 s hs hg
    rw [NewSink_slack_eq, NewSink.slackLookup_found id c w1 _ hg]
    simp [hs, World.emit]
  rw [NewSink_slack_eq]
  cases hh : w.cache.sinks.Has id with
  | false =>
    rw [NewSink.slackLookup_miss id c w hh]
    simp only [NewSink.slackBuild_valid ctx id c _ hbot happ]
    refine ⟨fun _ => ⟨_, _, rfl⟩, ?_⟩
    intro r w1 h
    simp only [Prod.mk.injEq, Go.ret.injEq] at h
    obtain ⟨hr, hw⟩ := h
    subst hr hw
    refine ⟨_, rfl, rfl, ?_⟩
    apply hit _ _ rfl
    simp [Cache.Add, GCache.Get_SetWithExpire]
  | true =>
    obtain ⟨v, hv⟩ := GCache.Get_of_Has _ _ hh
    have hv1 : (w.cache.sinks.Get id).1 = some v := by rw [hv]
    rw [NewSink.slackLookup_found id c w v hv1]
    constructor
    · intro hok
      obtain ⟨s, hs⟩ : ∃ s, v = Sink.slack (some s) := by
        unfold World.slackEntryOk at hok
        rw [hv1] at hok
        cases v with
        | mattermost p => simp at hok
        | slack p =>
          cases p with
          | none => simp at hok
          | some s => exact ⟨s, rfl⟩
      subst hs
      by_cases hc : s.config = c
      · simp only [hc, if_true]
        exact ⟨_, _, rfl⟩
      · simp only [hc, if_false, NewSink.slackBuild_valid ctx id c _ hbot happ]
        exact ⟨_, _, rfl⟩
    · intro r w1 h
      cases v with
      | mattermost p => simp at h
      | slack p =>
        cases p with
        | none => simp at h
        | some s =>
          by_cases hc : s.config = c
          · simp only [hc, if_true, Prod.mk.injEq, Go.ret.injEq] at h
            obtain ⟨hr, hw⟩ := h
            subst hr hw
            refine ⟨s, rfl, hc, ?_⟩
            rw [hit _ s hc (by simpa [World.emit] using hv1)]
          · simp only [hc, if_false, NewSink.slackBuild_valid ctx id c _ hbot happ,
              Prod.mk.injEq, Go.ret.injEq] at h
            obtain ⟨hr, hw⟩ := h
            subst hr hw
            refine ⟨_, rfl, rfl, ?_⟩
            apply hit _ _ rfl
            simp [Cache.Add, GCache.Get_SetWithExpire]

/-- Claim C2, from the initial state with `validConfig`. -/
theorem NewSink_same_config_returns_cached_witness :
    HasPrefix validConfig.BotToken "xoxb-" = true ∧
    HasPrefix validConfig.AppLevelToken "xapp-" = true ∧
    (World.initial.slackEntryOk "prod/default/alerts" = true →
      ∃ r w1, NewSink sampleEnv 7 "prod/default/alerts" SinkTypeSlack (Config.slack validConfig)
        World.initial = (Go.ret r, w1)) ∧
    (∀ r w1, NewSink sampleEnv 7 "prod/default/alerts" SinkTypeSlack (Config.slack validConfig)
        World.initial = (Go.ret r, w1) →
      ∃ s, r = (some (Sink.slack (some s)), none) ∧ s.config = validConfig ∧
        NewSink sampleEnv 8 "prod/default/alerts" SinkTypeSlack (Config.slack validConfig) w1 =
          (Go.ret r, { w1 with trace := w1.trace ++
            [Effect.cacheHas "prod/default/alerts", Effect.cacheGet "prod/default/alerts"] })) :=
  ⟨by decide, by decide,
    NewSink_same_config_returns_cached sampleEnv 7 8 "prod/default/alerts" validConfig
      World.initial (by decide) (by decide)⟩

/-- Claim C3. Let the entry of the identity be a Slack client `old`, and let `c'` pass the
checks of `NewSlackSink` and differ from the configuration of `old`. Then `NewSink`
returns, without error, the client allocated at the next free address with configuration
`c'`; it is not `old`; afterwards the cache returns it for the identity and has exactly
one entry for the identity; every entry that still holds `old` is an entry of another
identity that held it before (so none, when only the identity held it); and the trace grew
by the two reads, the removal, the construction with its listener, and the insertion. -/
theorem NewSink_changed_config_rebuilds (env : Env) (ctx : Nat) (id : String) (old : Slack)
    (c' : SlackConfig) (w : World)
    (hbot : HasPrefix c'.BotToken "xoxb-" = true)
    (happ : HasPrefix c'.AppLevelToken "xapp-" = true)
    (hentry : (w.cache.sinks.Get id).1 = some (Sink.slack (some old)))
    (hne : old.config ≠ c') :
    ∃ w', NewSink env ctx id SinkTypeSlack (Config.slack c') w =
        (Go.ret (some (Sink.slack (some ⟨w.nextAddr, c', SinkTypeSlack⟩)), none), w') ∧
      (⟨w.nextAddr, c', SinkTypeSlack⟩ : Slack) ≠ old ∧
      w'.cache.sinks.Get id =
        (some (Sink.slack (some ⟨w.nextAddr, c', SinkTypeSlack⟩)), none) ∧
      (w'.cache.sinks.filter (fun e => e.1 == id)).length = 1 ∧
      (∀ e ∈ w'.cache.sinks, e.2 = Sink.slack (some old) →
        e.1 ≠ id ∧ e ∈ w.cache.sinks) ∧
      ((∀ e ∈ w.cache.sinks, e.2 = Sink.slack (some old) → e.1 = id) →
        ∀ e ∈ w'.cache.sinks, e.2 ≠ Sink.slack (some old)) ∧
      w'.nextAddr = w.nextAddr + 1 ∧
      w'.listeners = w.listeners ++ [(w.nextAddr, ctx)] ∧
      w'.trace = w.trace ++ [Effect.cacheHas id, Effect.cacheGet id, Effect.cacheRemove id,
        Effect.slackNew w.nextAddr c'.BotToken c'.AppLevelToken c'.Debug,
        Effect.socketRun w.nextAddr ctx,
        Effect.cacheSet id (Sink.slack (some ⟨w.nextAddr, c', SinkTypeSlack⟩)) cacheTTL] := by
  have hnew : (⟨w.nextAddr, c', SinkTypeSlack⟩ : Slack) ≠ old := by
    intro h
    exact hne (by rw [← h])
  have hold : ∀ e ∈ (Cache.Add id (Sink.slack (some ⟨w.nextAddr, c', SinkTypeSlack⟩))
      cacheTTL
      (Slack.init ⟨w.nextAddr, c', SinkTypeSlack⟩ ctx
        { Cache.Remove id ((w.emit (Effect.cacheHas id)).emit (Effect.cacheGet id)) with
          nextAddr := w.nextAddr + 1 })).2.cache.sinks,
      e.2 = Sink.slack (some old) → e.1 ≠ id ∧ e ∈ w.cache.sinks := by
    intro e he h2
    simp only [Cache.Add, GCache.SetWithExpire, Slack.init, Slack.handlerSocketMode,
      Cache.Remove, GCache.Remove,
      World.emit, List.mem_cons, List.mem_filter] at he
    rcases he with he | ⟨⟨hm, _⟩, hk⟩
    · subst he
      simp only [Sink.slack.injEq, Option.some.injEq] at h2
      exact absurd h2 hnew
    · exact ⟨by simpa using hk, hm⟩
  refine ⟨_, ?_, hnew, ?_, ?_, hold, ?_, ?_, ?_, ?_⟩
  · rw [NewSink_slack_eq, NewSink.slackLookup_found id c' w _ hentry]
    simp only [hne, if_false, NewSink.slackBuild_valid ctx id c' _ hbot happ]
    rfl
  · simp [Cache.Add, GCache.Get_SetWithExpire]
  · simp [Cache.Add, GCache.SetWithExpire, List.filter_filter]
  · intro hown e he h2
    obtain ⟨h3, h4⟩ := hold e he h2
    exact h3 (hown e h4 h2)
  · simp [Cache.Add, Slack.init, Slack.handlerSocketMode, Cache.Remove, World.emit]
  · simp [Cache.Add, Slack.init, Slack.handlerSocketMode, Cache.Remove, World.emit]
  · simp [Cache.Add, Slack.init, Slack.handlerSocketMode, Cache.Remove, World.emit]

/-- Claim C3, from `worldWithClient` with `otherConfig`. -/
theorem NewSink_changed_config_rebuilds_witness : HasPrefix otherConfig.BotToken "xoxb-" = true ∧
    HasPrefix otherConfig.AppLevelToken "xapp-" = true ∧
    (worldWithClient.cache.sinks.Get "prod/default/alerts").1 =
      some (Sink.slack (some ⟨0, validConfig, SinkTypeSlack⟩)) ∧
    validConfig ≠ otherConfig ∧
    ∃ w', NewSink sampleEnv 8 "prod/default/alerts" SinkTypeSlack (Config.slack otherConfig)
        worldWithClient =
        (Go.ret (some (Sink.slack (some ⟨1, otherConfig, SinkTypeSlack⟩)), none), w') ∧
      w'.cache.sinks.Get "prod/default/alerts" =
        (some (Sink.slack (some ⟨1, otherConfig, SinkTypeSlack⟩)), none) ∧
      (w'.cache.sinks.filter (fun e => e.1 == "prod/default/alerts")).length = 1 :=
  ⟨by decide, by decide, by decide, by decide,
    (NewSink_changed_config_rebuilds sampleEnv 8 "prod/default/alerts"
      ⟨0, validConfig, SinkTypeSlack⟩ otherConfig
      worldWithClient (by decide) (by decide) (by decide) (by decide)).imp
      (fun _ h => ⟨h.1, h.2.2.1, h.2.2.2.1⟩)⟩

/-! ## Removal and listeners: claim C4 -/

/-- Claim C4 fails. After a successful `NewSink` the client at address 0 is cached and its
listener runs and is not cancelled (it would be, had its context been cancelled); after
`Cache.Remove` of its identity the cache is empty and the listener still runs and is not
cancelled; the same holds after a `NewSink` call with a changed configuration, which
replaces the entry. -/
theorem Cache_Remove_leaves_listener_running :
    worldWithClient.cache.sinks.Get "prod/default/alerts" =
      (some (Sink.slack (some ⟨0, validConfig, SinkTypeSlack⟩)), none) ∧
    worldWithClient.listenerRunning 0 = true ∧
    worldWithClient.listenerCancelled 0 = false ∧
    (worldWithClient.cancel 7).listenerCancelled 0 = true ∧
    (Cache.Remove "prod/default/alerts" worldWithClient).cache.sinks = [] ∧
    (Cache.Remove "prod/default/alerts" worldWithClient).listenerRunning 0 = true ∧
    (Cache.Remove "prod/default/alerts" worldWithClient).listenerCancelled 0 = false ∧
    (NewSink sampleEnv 8 "prod/default/alerts" SinkTypeSlack (Config.slack otherConfig)
      worldWithClient).2.cache.sinks =
        [("prod/default/alerts", Sink.slack (some ⟨1, otherConfig, SinkTypeSlack⟩))] ∧
    (NewSink sampleEnv 8 "prod/default/alerts" SinkTypeSlack (Config.slack otherConfig)
      worldWithClient).2.listenerRunning 0 = true ∧
    (NewSink sampleEnv 8 "prod/default/alerts" SinkTypeSlack (Config.slack otherConfig)
      worldWithClient).2.listenerCancelled 0 = false := by
  decide

/-- Claim C4, amended. The method `Cache.Remove` deletes the entries of the identity and
nothing else: the other entries stay and are found as before, and the listeners, the
contexts that are done and the listeners that have ended are as they were, so every
listener is running after the call exactly when it was running before, and cancelled
exactly when it was cancelled before. In the same way a listener that is running, or not
cancelled, before a `NewSink` call, which may remove a stale entry, is so after it. -/
theorem Cache_Remove_keeps_listeners (id : String) (w : World) :
    (Cache.Remove id w).cache.sinks.Has id = false ∧
    (∀ e, e ∈ (Cache.Remove id w).cache.sinks ↔ e ∈ w.cache.sinks ∧ e.1 ≠ id) ∧
    (∀ k, k ≠ id → (Cache.Remove id w).cache.sinks.Get k = w.cache.sinks.Get k) ∧
    (Cache.Remove id w).listeners = w.listeners ∧
    (Cache.Remove id w).cancelled = w.cancelled ∧
    (Cache.Remove id w).stopped = w.stopped ∧
    (∀ addr, (Cache.Remove id w).listenerRunning addr = w.listenerRunning addr) ∧
    (∀ addr, (Cache.Remove id w).listenerCancelled addr = w.listenerCancelled addr) ∧
    (∀ env ctx sinkType config addr, w.listenerRunning addr = true →
      (NewSink env ctx id sinkType config w).2.listenerRunning addr = true) ∧
    (∀ env ctx sinkType config addr, w.listenerCancelled addr = false →
      (NewSink env ctx id sinkType config w).2.listenerCancelled addr = false) := by
  refine ⟨?_, ?_, ?_, rfl, rfl, rfl, fun _ => rfl, fun _ => rfl, ?_, ?_⟩
  · simp [Cache.Remove, GCache.Remove, GCache.Has, World.emit]
  · intro e
    simp [Cache.Remove, GCache.Remove, World.emit]
  · intro k hk
    exact GCache.Get_Remove_of_ne _ id k hk
  · intro env ctx sinkType config addr h
    exact World.listenerRunning_of_step addr (NewSink_step env ctx id sinkType config w) h
  · intro env ctx sinkType config addr h
    exact World.listenerCancelled_of_step addr (NewSink_step env ctx id sinkType config w) h

/-! ## Dispatch: claims C6, C7 -/

/-- Claim C7, at a failing input. The event is abnormal and the only configured channel,
which does not exclude the reason, has a bot token without the prefix `xoxb-`.
`NewSlackSink` rejects the configuration, but `NewSink` drops that error and hands back a
nil client, so `processSink` panics and `Reconcile` panics with it, without a post: it
returns neither the error of the channel with a requeue after 5 seconds nor the empty
result. -/
theorem Reconcile_malformed_channel_panics :
    sampleEvent.Type_ ≠ "Normal" ∧
    malformedCluster.listSinksConfigs "default" = ([malformedChannel], none) ∧
    EventReconciler.attemptable sampleEvent [malformedChannel] = [malformedChannel] ∧
    (NewSlackSink 7 malformedConfig World.initial).1 = (none, some "no valid bot token") ∧
    (EventReconciler.processSink sampleEnv 7 "prod/default/m" "slack"
      (Config.slack malformedConfig) samplePayload World.initial).1 =
        Go.panic "invalid memory address or nil pointer dereference" ∧
    (EventReconciler.Reconcile sampleEnv malformedCluster sampleReconciler 7
      ⟨"default", "api-7f.17"⟩ World.initial).1 =
        Go.panic "invalid memory address or nil pointer dereference" ∧
    posts (EventReconciler.Reconcile sampleEnv malformedCluster sampleReconciler 7
      ⟨"default", "api-7f.17"⟩ World.initial).2.trace = [] := by
  decide

/-! ## The Slack client: claims C8, C9 -/

/-- Claim C9 fails. A log excerpt of one space is present and not empty, the post
succeeds, and no file is uploaded. -/
theorem Slack_ForwardEvent_blank_logs_not_uploaded :
    blankLogsPayload.Logs = " " ∧ blankLogsPayload.Logs ≠ "" ∧
    (Slack.ForwardEvent sampleEnv ⟨0, validConfig, SinkTypeSlack⟩ blankLogsPayload
      World.initial).1 = none ∧
    posts (Slack.ForwardEvent sampleEnv ⟨0, validConfig, SinkTypeSlack⟩ blankLogsPayload
      World.initial).2.trace = [(0, "C0123", Slack.eventMessage blankLogsPayload)] ∧
    uploads (Slack.ForwardEvent sampleEnv ⟨0, validConfig, SinkTypeSlack⟩ blankLogsPayload
      World.initial).2.trace = [] := by
  decide

/-- Claim C9, amended. On a non-nil client, `Slack.ForwardEvent` posts exactly one
message, to the configured channel. When the post fails nothing is uploaded. When it
succeeds, one file is uploaded if the log excerpt is not blank (not empty after
`TrimSpace`), with name, title and comment `<namespace>/<pod>.log`, type `log`, the
excerpt as content and the configured channel as target; and nothing is uploaded if the
excerpt is blank. An empty excerpt is never uploaded. -/
theorem Slack_ForwardEvent_posts_once (env : Env) (s : Slack) (payload : Payload) (w : World) :
    ∃ d, (s.ForwardEvent env payload w).2.trace = w.trace ++ d ∧
      posts d = [(s.addr, s.config.ChannelID, Slack.eventMessage payload)] ∧
      (env.postMessage w.trace.length s.config.ChannelID (Slack.eventMessage payload) ≠ none →
        uploads d = []) ∧
      (env.postMessage w.trace.length s.config.ChannelID (Slack.eventMessage payload) = none →
        (TrimSpace payload.Logs ≠ "" →
          uploads d = [(s.addr,
            ⟨mapGet payload.ExtraLabels "namespace" ++ "/" ++ mapGet payload.ExtraLabels "pod" ++
                ".log",
              mapGet payload.ExtraLabels "namespace" ++ "/" ++ mapGet payload.ExtraLabels "pod" ++
                ".log",
              "log", payload.Logs, [s.config.ChannelID],
              mapGet payload.ExtraLabels "namespace" ++ "/" ++ mapGet payload.ExtraLabels "pod" ++
                ".log"⟩)]) ∧
        (TrimSpace payload.Logs = "" → uploads d = [])) ∧
      (payload.Logs = "" → uploads d = []) := by
  cases hp : env.postMessage w.trace.length s.config.ChannelID (Slack.eventMessage payload) with
  | some err =>
    refine ⟨[Effect.postMessage s.addr s.config.ChannelID (Slack.eventMessage payload)], ?_, rfl,
      fun _ => rfl, fun h => ?_, fun _ => rfl⟩
    · simp [Slack.ForwardEvent, hp, World.emit]
    · simp at h
  | none =>
    by_cases ht : TrimSpace payload.Logs = ""
    · refine ⟨[Effect.postMessage s.addr s.config.ChannelID (Slack.eventMessage payload),
        Effect.sleep slackApiRateLimit], ?_, rfl, fun _ => rfl,
        fun _ => ⟨fun h => absurd ht h, fun _ => rfl⟩, fun _ => rfl⟩
      simp [Slack.ForwardEvent, hp, ht, World.emit]
    · have hne : payload.Logs ≠ "" := by
        intro h
        rw [h] at ht
        exact ht TrimSpace_empty
      cases hu : env.uploadFile (w.trace.length + 1) (s.logUpload payload) with
      | some err =>
        refine ⟨[Effect.postMessage s.addr s.config.ChannelID (Slack.eventMessage payload),
          Effect.uploadFile s.addr (s.logUpload payload)], ?_, rfl,
          fun h => absurd rfl h, fun _ => ⟨fun _ => rfl, fun h => absurd h ht⟩,
          fun h => absurd h hne⟩
        simp [Slack.ForwardEvent, hp, ht, hu, World.emit]
      | none =>
        refine ⟨[Effect.postMessage s.addr s.config.ChannelID (Slack.eventMessage payload),
          Effect.uploadFile s.addr (s.logUpload payload), Effect.sleep slackApiRateLimit],
          ?_, rfl,
          fun h => absurd rfl h, fun _ => ⟨fun _ => rfl, fun h => absurd h ht⟩,
          fun h => absurd h hne⟩
        simp [Slack.ForwardEvent, hp, ht, hu, World.emit]

end Kvnts
